import Mathlib

/-!
Verification of the Juke shared-memory audio/display bridge
(audio backend `juke_write` etc., display backend `juke_shmem_*`).

Machine integers are modelled as `Nat` with explicit reduction modulo
`2^32` (u32) and `2^64` (u64) at the points where the C code performs
wrapping arithmetic.  Byte buffers are modelled as functions `Nat → Nat`
(byte index to byte value); a `memcpy` becomes a pointwise function
update on the written range.  Atomic loads/stores become plain reads and
writes: the single-threaded functional content of each operation is what
is verified here, the memory-order annotations of the source are only
mirrored in comments.
-/

namespace JukeSpec

/-- Modulus of C `uint32_t` arithmetic. -/
def U32 : Nat := 4294967296

/-- Modulus of C `uint64_t` arithmetic. -/
def U64 : Nat := 18446744073709551616

/-- C expression `a - b` on `uint32_t` operands (both assumed `< U32`). -/
def sub32 (a b : Nat) : Nat := (a + U32 - b) % U32

/- Constants of the audio backend (audio source file). -/

def JUKE_AUDIO_MAGIC : Nat := 0x4455414A

def JUKE_AUDIO_VERSION : Nat := 2

/-- Ring buffer size in frames (must be power of 2): 8192. -/
def JUKE_AUDIO_RING_FRAMES : Nat := 8192

/-!
## Audio data model

`JukeAudioHeader` fields that `juke_write` reads or writes, together
with the sample area that follows the header.  `present` models the
`!s || !s->shmem` guard (shared memory mapped or not).  The transport
fields (`client_fd`, `fd_sent`) are independent of the ring and are
modelled separately by `JukeAudioConn` below; the connect/send preamble
of `juke_write` (source lines 157-164) touches only those.
-/

structure AudioState where
  present : Bool
  ring_frames : Nat
  write_idx : Nat
  read_idx : Nat
  enabled : Nat
  /-- Byte contents of the sample area that follows the 64-byte header. -/
  ring : Nat → Nat

/-- Occupancy as computed by `juke_write`:
`used = (write_idx - read_idx) & (ring_frames - 1)`. -/
def jw_used (s : AudioState) : Nat :=
  sub32 s.write_idx s.read_idx &&& (s.ring_frames - 1)

/-- Free space as computed by `juke_write`:
`free_frames = ring_frames - used - 1` (one slot kept unused). -/
def jw_free (s : AudioState) : Nat :=
  s.ring_frames - jw_used s - 1

/-- Frames actually written by `juke_write`: `len / frame_size` clamped
to `free_frames` (the source clamps with an `if`, i.e. takes the min). -/
def jw_frames (s : AudioState) (len fs : Nat) : Nat :=
  min (len / fs) (jw_free s)

/-- Shallow embedding of `juke_write` (audio source, lines 146-215).
Parameters: `buf` the input byte buffer, `len` its length in bytes,
`fs` the frame size `hw->info.bytes_per_frame`, `rateBytes` the value
`audio_rate_get_bytes(&juke->rate, &hw->info, len)` would return on
this call.  Returns the byte count returned to the mixer and the
post-state. -/
def juke_write (s : AudioState) (buf : Nat → Nat) (len fs rateBytes : Nat) :
    Nat × AudioState :=
  if s.present = false then
    -- not ready: rate control only
    (rateBytes, s)
  else if s.enabled = 0 then
    -- disabled by Juke: consume at rate, store nothing
    (rateBytes, s)
  else
    let frames_to_write := jw_frames s len fs
    if frames_to_write = 0 then
      -- buffer full: rate control
      (rateBytes, s)
    else
      let ring_bytes := s.ring_frames * fs
      let write_offset := (s.write_idx &&& (s.ring_frames - 1)) * fs
      let bytes_to_write := frames_to_write * fs
      let first_chunk := ring_bytes - write_offset
      -- the two-memcpy wrap-around copy of the source
      let ring2 : Nat → Nat :=
        if bytes_to_write ≤ first_chunk then
          fun i =>
            if write_offset ≤ i ∧ i < write_offset + bytes_to_write then
              buf (i - write_offset)
            else s.ring i
        else
          fun i =>
            if write_offset ≤ i ∧ i < ring_bytes then buf (i - write_offset)
            else if i < bytes_to_write - first_chunk then buf (first_chunk + i)
            else s.ring i
      -- release store of write_idx + frames_to_write (u32 wrap, no masking)
      (bytes_to_write,
        { s with write_idx := (s.write_idx + frames_to_write) % U32,
                 ring := ring2 })

/-!
## Audio transport model (fd handshake)

`JukeAudioConn` models the fields of `JukeAudioState` that
`juke_audio_send_fd` reads and writes: `client_fd >= 0` becomes
`client_connected`, `shmem_fd >= 0` becomes `shmem_fd_present`.
`sendOk` models the success of the `sendmsg` syscall.  The returned
`Bool` records whether `sendmsg` was called at all. -/

structure JukeAudioConn where
  client_connected : Bool
  shmem_fd_present : Bool
  fd_sent : Bool
deriving DecidableEq

/-- Shallow embedding of `juke_audio_send_fd` (audio source, lines
75-106). -/
def juke_audio_send_fd (s : JukeAudioConn) (sendOk : Bool) :
    JukeAudioConn × Bool :=
  if s.client_connected = false ∨ s.shmem_fd_present = false ∨ s.fd_sent = true then
    (s, false)
  else if sendOk then
    ({ s with fd_sent := true }, true)
  else
    (s, true)

/-!
## Display data model (display source file)

Sizes are the C `sizeof` values on an LP64 platform:
`JukeShmemHeader` is 6 u32 + 1 u64 (8-aligned at offset 24) + 4 u32 +
1 u32 + 2 i32 + 3 u32 + 2 i32 = 80 bytes; `JukeInputRing` is
2 u32 + 8 bytes padding + 256 events of 12 bytes = 3088 bytes. -/

def JUKE_SHMEM_MAGIC : Nat := 0x454B554A

def JUKE_SHMEM_VERSION : Nat := 3

def JUKE_CURSOR_MAX_SIZE : Nat := 64

def JUKE_CURSOR_DATA_SIZE : Nat := JUKE_CURSOR_MAX_SIZE * JUKE_CURSOR_MAX_SIZE * 4

def JUKE_INPUT_RING_SIZE : Nat := 256

def SIZEOF_SHMEM_HEADER : Nat := 80

def SIZEOF_INPUT_RING : Nat := 3088

/-- Single input event (12 bytes), written by the renderer. -/
structure JukeInputEvent where
  type : Nat
  button : Nat
  pressed : Nat
  x : Int
  y : Int
deriving DecidableEq

/-- Input ring buffer inside the display region. -/
structure JukeInputRing where
  write_idx : Nat
  read_idx : Nat
  events : Nat → JukeInputEvent

/-- Header at the start of the display shared memory region. -/
structure ShmemHeader where
  magic : Nat
  version : Nat
  width : Nat
  height : Nat
  stride : Nat
  format : Nat
  frame_counter : Nat
  dirty_x : Nat
  dirty_y : Nat
  dirty_w : Nat
  dirty_h : Nat
  cursor_version : Nat
  cursor_x : Int
  cursor_y : Int
  cursor_visible : Nat
  cursor_width : Nat
  cursor_height : Nat
  cursor_hot_x : Int
  cursor_hot_y : Int

/-- One mapped display region: header, then the 64x64 RGBA cursor slot
(`cursor_data` indexed by pixel, 32-bit units), then the input ring,
then the pixel bytes. -/
structure Region where
  hdr : ShmemHeader
  cursor_data : Nat → Nat
  ring : JukeInputRing
  pixels : Nat → Nat

/-- Host display surface as seen through `surface_width` /
`surface_height` / `surface_stride` / `surface_format` /
`surface_data` (byte view). -/
structure Surface where
  width : Nat
  height : Nat
  stride : Nat
  format : Nat
  data : Nat → Nat

/-- Console cursor as returned by `qemu_console_get_cursor`:
`data` is the 32-bit RGBA pixel array, indexed `y * width + x`. -/
structure QEMUCursor where
  width : Nat
  height : Nat
  hot_x : Int
  hot_y : Int
  data : Nat → Nat

/-- State of `JukeShmemState` that the display callbacks manipulate.
`client_fd >= 0` becomes `client_connected`, `shmem_fd >= 0` becomes
`shmem_fd_present`, a non-null `socket_path` becomes
`has_socket_path`. -/
structure JukeShmemState where
  surface : Option Surface
  shmem : Option Region
  shmem_size : Nat
  shmem_fd_present : Bool
  has_socket_path : Bool
  client_connected : Bool
  fd_sent : Bool

/-- Shallow embedding of `juke_shmem_send_fd` (display source, lines
741-773).  `sendOk` models the `sendmsg` success; the returned `Bool`
records whether `sendmsg` was called. -/
def juke_shmem_send_fd (s : JukeShmemState) (sendOk : Bool) :
    JukeShmemState × Bool :=
  if s.client_connected = false ∨ s.shmem_fd_present = false ∨ s.fd_sent = true then
    (s, false)
  else if sendOk then
    ({ s with fd_sent := true }, true)
  else
    (s, true)

/-!
## Input drain

The host-input side effects of `juke_shmem_process_input` are recorded
as a list of `HostCall`s, in the order the corresponding framework
functions are invoked by the source. -/

inductive HostCall where
  | queueRelX (dx : Int)
  | queueRelY (dy : Int)
  | queueAbsX (x : Int) (maxv : Nat)
  | queueAbsY (y : Int) (maxv : Nat)
  | queueBtn (button : Nat) (pressed : Nat)
  | sendKey (scancode : Int) (pressed : Nat)
  | sync
deriving DecidableEq

/-- Translation of one decoded event to host-input calls (the `switch`
in `juke_shmem_process_input`; an unknown `type` dispatches nothing). -/
def dispatchEvent (width height : Nat) (ev : JukeInputEvent) : List HostCall :=
  if ev.type = 1 then [.queueRelX ev.x, .queueRelY ev.y]
  else if ev.type = 2 then [.queueAbsX ev.x width, .queueAbsY ev.y height]
  else if ev.type = 3 then [.queueBtn ev.button ev.pressed]
  else if ev.type = 4 then [.sendKey ev.x ev.pressed]
  else []

/-- Number of loop iterations of the drain loop: the u32 difference
`write_idx - read_idx`. -/
def drainCount (w r : Nat) : Nat := sub32 w r

/-- The `while (read_idx != write_idx)` loop of
`juke_shmem_process_input`, as structural recursion on a fuel that is
instantiated with `drainCount` (the exact iteration count of the C
loop).  Returns the final local `read_idx` and the host calls made. -/
def drainLoop (fuel rd w : Nat) (events : Nat → JukeInputEvent)
    (width height : Nat) : Nat × List HostCall :=
  match fuel with
  | 0 => (rd, [])
  | fuel2 + 1 =>
    if rd = w then (rd, [])
    else
      let calls := dispatchEvent width height (events (rd % JUKE_INPUT_RING_SIZE))
      let rest := drainLoop fuel2 ((rd + 1) % U32) w events width height
      (rest.1, calls ++ rest.2)

/-- Shallow embedding of `juke_shmem_process_input` (display source,
lines 506-540).  (The C function is only called with `s->shmem` set;
the `none` case is a harmless identity here.) -/
def juke_shmem_process_input (s : JukeShmemState) :
    JukeShmemState × List HostCall :=
  match s.shmem with
  | none => (s, [])
  | some r =>
    let w := r.ring.write_idx
    let rd0 := r.ring.read_idx
    let res := drainLoop (drainCount w rd0) rd0 w r.ring.events r.hdr.width r.hdr.height
    if res.1 ≠ rd0 then
      -- drained something: qemu_input_event_sync, then release store
      let r2 := { r with ring := { r.ring with read_idx := res.1 } }
      ({ s with shmem := some r2 }, res.2 ++ [.sync])
    else
      (s, res.2)

/-- Closed form of the drain loop's dispatch sequence: the events at
u32 indices `rd, rd+1, ...` (each taken modulo the 256-slot capacity),
decoded in order of increasing index. -/
def drainCalls (rd n : Nat) (events : Nat → JukeInputEvent)
    (width height : Nat) : List HostCall :=
  (List.range n).flatMap (fun i =>
    dispatchEvent width height (events (((rd + i) % U32) % JUKE_INPUT_RING_SIZE)))

/-- Shallow embedding of `juke_shmem_gfx_update` (display source, lines
542-569).  Copies full rows `[y, y+h)` (stride bytes each), records the
dirty rectangle, then bumps `frame_counter` (u64, release order in the
source). -/
def juke_shmem_gfx_update (s : JukeShmemState) (x y w h : Nat) : JukeShmemState :=
  match s.shmem, s.surface with
  | some r, some surf =>
    let stride := surf.stride
    let r2 :=
      { r with
        pixels := fun i =>
          if y * stride ≤ i ∧ i < (y + h) * stride then surf.data i else r.pixels i,
        hdr := { r.hdr with
          dirty_x := x, dirty_y := y, dirty_w := w, dirty_h := h,
          frame_counter := (r.hdr.frame_counter + 1) % U64 } }
    { s with shmem := some r2 }
  | _, _ => s

/-- Region (re)initialization done by `juke_shmem_gfx_switch` after the
capacity check: header fields, cursor state, input ring indices, and
the initial `memcpy` of the surface contents into the pixel area. -/
def gfxSwitchInitRegion (r : Region) (surf : Surface) : Region :=
  { hdr :=
      { magic := JUKE_SHMEM_MAGIC, version := JUKE_SHMEM_VERSION,
        width := surf.width, height := surf.height, stride := surf.stride,
        format := surf.format, frame_counter := 0,
        dirty_x := 0, dirty_y := 0, dirty_w := surf.width, dirty_h := surf.height,
        cursor_version := 0, cursor_x := 0, cursor_y := 0, cursor_visible := 0,
        cursor_width := 0, cursor_height := 0, cursor_hot_x := 0, cursor_hot_y := 0 },
    cursor_data := r.cursor_data,
    ring := { write_idx := 0, read_idx := 0, events := r.ring.events },
    pixels := fun i =>
      if i < surf.stride * surf.height then surf.data i else r.pixels i }

/-- Bytes needed for a surface:
`sizeof(JukeShmemHeader) + JUKE_CURSOR_DATA_SIZE + sizeof(JukeInputRing) + stride*height`. -/
def gfxNeeded (surf : Surface) : Nat :=
  SIZEOF_SHMEM_HEADER + JUKE_CURSOR_DATA_SIZE + SIZEOF_INPUT_RING +
    surf.stride * surf.height

/-- Shallow embedding of `juke_shmem_gfx_switch` (display source, lines
571-644).  `alloc` is the result of `qemu_memfd_alloc` (fresh region
and fd) if the reallocation path asks for one; `sendOk` models the
`sendmsg` of the trailing `juke_shmem_send_fd` attempt.  (If the
capacity test passes while `shmem` is `NULL` — only reachable after a
failed allocation — the C code would dereference `NULL`; that crash
path is modelled as the identity.) -/
def juke_shmem_gfx_switch (s : JukeShmemState) (new_surface : Option Surface)
    (alloc : Option Region) (sendOk : Bool) : JukeShmemState :=
  let s1 := { s with surface := new_surface }
  match new_surface with
  | none => s1
  | some surf =>
    let needed := gfxNeeded surf
    -- reallocate shared memory if size changed
    let s2 :=
      if s1.shmem_size < needed then
        let sFreed :=
          match s1.shmem with
          | some _ =>
            { s1 with shmem := none, shmem_fd_present := false, fd_sent := false }
          | none => s1
        let sSized := { sFreed with shmem_size := needed }
        match alloc with
        | some r0 => { sSized with shmem := some r0, shmem_fd_present := true }
        | none => { sSized with shmem := none }
      else s1
    match s2.shmem with
    | none => s2
    | some r =>
      let s3 := { s2 with shmem := some (gfxSwitchInitRegion r surf) }
      -- try to send fd if client connected
      if s3.client_connected = true ∧ s3.fd_sent = false then
        (juke_shmem_send_fd s3 sendOk).1
      else s3

/-- Shallow embedding of `juke_shmem_cursor_define` (display source,
lines 672-710).  The passed `QEMUCursor*` argument is ignored by the
source; `con_cursor` is what `qemu_console_get_cursor` returns.  The
cursor slot is addressed in 32-bit pixel units: slot pixel `i` sits at
row `i / 64`, column `i % 64`. -/
def juke_shmem_cursor_define (s : JukeShmemState)
    (con_cursor : Option QEMUCursor) : JukeShmemState :=
  match s.shmem with
  | none => s
  | some r =>
    match con_cursor with
    | none =>
      -- no cursor: zero dimensions, still bump cursor_version
      let r2 :=
        { r with hdr := { r.hdr with
            cursor_width := 0, cursor_height := 0,
            cursor_version := (r.hdr.cursor_version + 1) % U32 } }
      { s with shmem := some r2 }
    | some c =>
      let w := min c.width JUKE_CURSOR_MAX_SIZE
      let h := min c.height JUKE_CURSOR_MAX_SIZE
      let r2 :=
        { r with
          hdr := { r.hdr with
            cursor_width := w, cursor_height := h,
            cursor_hot_x := c.hot_x, cursor_hot_y := c.hot_y,
            cursor_version := (r.hdr.cursor_version + 1) % U32 },
          cursor_data := fun i =>
            if i / JUKE_CURSOR_MAX_SIZE < h ∧ i % JUKE_CURSOR_MAX_SIZE < w then
              c.data ((i / JUKE_CURSOR_MAX_SIZE) * c.width + i % JUKE_CURSOR_MAX_SIZE)
            else r.cursor_data i }
      { s with shmem := some r2 }

/-- Shallow embedding of `juke_shmem_mouse_set` (display source, lines
715-729): position and visibility, then a release fence (no version
bump). -/
def juke_shmem_mouse_set (s : JukeShmemState) (x y : Int) (visible : Bool) :
    JukeShmemState :=
  match s.shmem with
  | none => s
  | some r =>
    let r2 :=
      { r with hdr := { r.hdr with
          cursor_x := x, cursor_y := y,
          cursor_visible := if visible then 1 else 0 } }
    { s with shmem := some r2 }

/-- Repeated display send-fd calls: fold of `juke_shmem_send_fd` over a
list of `sendmsg` outcomes. -/
def sendFdCalls (s : JukeShmemState) (oks : List Bool) : JukeShmemState :=
  oks.foldl (fun st ok => (juke_shmem_send_fd st ok).1) s

/-- Repeated audio send-fd calls. -/
def audioSendFdCalls (s : JukeAudioConn) (oks : List Bool) : JukeAudioConn :=
  oks.foldl (fun st ok => (juke_audio_send_fd st ok).1) s


/-!
## Producer/consumer traces for the audio ring (C7)

The producer is `juke_write`; the consumer (the renderer) owns
`read_idx` and `enabled`.  A well-behaved consumer advances `read_idx`
by at most the current occupancy — modelled by clamping with `min` —
and may toggle `enabled` at any time. -/

inductive AudioOp where
  | write (buf : Nat → Nat) (len rateBytes : Nat)
  | consume (k : Nat)
  | setEnabled (e : Nat)

/-- Consumer advance of `read_idx` by (at most) `k` frames. -/
def consumeStep (s : AudioState) (k : Nat) : AudioState :=
  { s with read_idx :=
      (s.read_idx + min k (sub32 s.write_idx s.read_idx)) % U32 }

def audioStep (fs : Nat) (s : AudioState) : AudioOp → AudioState
  | .write buf len rb => (juke_write s buf len fs rb).2
  | .consume k => consumeStep s k
  | .setEnabled e => { s with enabled := e }

/-- Audio state right after `juke_init_out`: 8192-frame ring, both
indices 0, `enabled = 0` until Juke flips it. -/
def initAudioState (ring0 : Nat → Nat) : AudioState :=
  { present := true, ring_frames := JUKE_AUDIO_RING_FRAMES,
    write_idx := 0, read_idx := 0, enabled := 0, ring := ring0 }

def audioRun (fs : Nat) (ring0 : Nat → Nat) (ops : List AudioOp) : AudioState :=
  ops.foldl (audioStep fs) (initAudioState ring0)

/-- Inductive invariant of the audio ring: indices are genuine u32
values and the occupancy `(write_idx - read_idx) mod 2^32` never
reaches `ring_frames`. -/
def AudioInv (s : AudioState) : Prop :=
  s.ring_frames = JUKE_AUDIO_RING_FRAMES ∧ s.write_idx < U32 ∧ s.read_idx < U32 ∧
  sub32 s.write_idx s.read_idx ≤ JUKE_AUDIO_RING_FRAMES - 1


/-!
## Concrete fixtures used by witnesses and counterexamples
-/

def zeroEvent : JukeInputEvent :=
  { type := 0, button := 0, pressed := 0, x := 0, y := 0 }

def zeroHeader : ShmemHeader :=
  { magic := 0, version := 0, width := 0, height := 0, stride := 0,
    format := 0, frame_counter := 0, dirty_x := 0, dirty_y := 0,
    dirty_w := 0, dirty_h := 0, cursor_version := 0, cursor_x := 0,
    cursor_y := 0, cursor_visible := 0, cursor_width := 0,
    cursor_height := 0, cursor_hot_x := 0, cursor_hot_y := 0 }

def zeroRing : JukeInputRing :=
  { write_idx := 0, read_idx := 0, events := fun _ => zeroEvent }

def zeroRegion : Region :=
  { hdr := zeroHeader, cursor_data := fun _ => 0, ring := zeroRing,
    pixels := fun _ => 0 }

/-- Scenario S4 surface: 800 x 600, stride 3200. -/
def surf800 : Surface :=
  { width := 800, height := 600, stride := 3200, format := 1,
    data := fun _ => 7 }

/-- Tiny 1 x 1 surface (needs 19556 bytes, fits in any larger region). -/
def surf1 : Surface :=
  { width := 1, height := 1, stride := 4, format := 1, data := fun _ => 9 }

/-- Scenario S4 display state: region present, surface `surf800`. -/
def s4state : JukeShmemState :=
  { surface := some surf800, shmem := some zeroRegion,
    shmem_size := 2000000, shmem_fd_present := true,
    has_socket_path := true, client_connected := false, fd_sent := false }

/-- Scenario S5 input events at ring slots 0..2. -/
def s5events : Nat → JukeInputEvent := fun i =>
  if i = 0 then { type := 1, button := 0, pressed := 0, x := 3, y := -2 }
  else if i = 1 then { type := 3, button := 1, pressed := 1, x := 0, y := 0 }
  else if i = 2 then { type := 4, button := 0, pressed := 1, x := 42, y := 0 }
  else zeroEvent

/-- Scenario S5 region: renderer has enqueued three events and stores
`write_idx = 3`. -/
def s5region : Region :=
  { hdr := { zeroHeader with width := 800, height := 600 },
    cursor_data := fun _ => 0,
    ring := { write_idx := 3, read_idx := 0, events := s5events },
    pixels := fun _ => 0 }

def s5state : JukeShmemState :=
  { surface := some surf800, shmem := some s5region,
    shmem_size := 2000000, shmem_fd_present := true,
    has_socket_path := true, client_connected := false, fd_sent := false }

/-- Scenario S6 cursor: 24 x 24, hotspot (3,3). -/
def cursor24 : QEMUCursor :=
  { width := 24, height := 24, hot_x := 3, hot_y := 3, data := fun _ => 5 }

/-- State with live counters, used to exhibit the `gfx_switch` counter
reset: `frame_counter = 5`, `cursor_version = 7`, three undrained input
events (`write_idx = 4`, `read_idx = 1`), capacity 100000 bytes. -/
def liveRegion : Region :=
  { hdr := { zeroHeader with
             width := 800, height := 600,
             frame_counter := 5, cursor_version := 7 },
    cursor_data := fun _ => 0,
    ring := { write_idx := 4, read_idx := 1, events := s5events },
    pixels := fun _ => 0 }

def liveState : JukeShmemState :=
  { surface := some surf800, shmem := some liveRegion,
    shmem_size := 100000, shmem_fd_present := true,
    has_socket_path := true, client_connected := false, fd_sent := true }

/-!
## Theorems
-/

/-- C1: with the audio region mapped and playback enabled (`enabled = 1`),
`juke_write` writes exactly `min (len / bytes_per_frame) free_frames`
frames, where `free_frames = ring_frames - ((write_idx - read_idx) &
(ring_frames - 1)) - 1` is computed from the entry `write_idx` and the
acquire-loaded `read_idx`; when that count is positive the call returns
exactly `frames_written * bytes_per_frame`, and `write_idx` is advanced
by exactly that many frames (u32 wrap only, no ring masking); the other
header fields are untouched. -/
theorem juke_write_frames_written (s : AudioState) (buf : Nat → Nat)
    (len fs rateBytes : Nat)
    (hp : s.present = true) (he : s.enabled = 1) (hw : s.write_idx < U32) :
    (juke_write s buf len fs rateBytes).2.write_idx
        = (s.write_idx + jw_frames s len fs) % U32
    ∧ (0 < jw_frames s len fs →
        (juke_write s buf len fs rateBytes).1 = jw_frames s len fs * fs)
    ∧ (juke_write s buf len fs rateBytes).2.read_idx = s.read_idx
    ∧ (juke_write s buf len fs rateBytes).2.ring_frames = s.ring_frames
    ∧ (juke_write s buf len fs rateBytes).2.enabled = s.enabled := by
  by_cases h0 : jw_frames s len fs = 0
  · simp [juke_write, hp, he, h0, Nat.mod_eq_of_lt hw]
  · simp [juke_write, hp, he, h0]

/-- Witness for C1, scenario S1 of the spec: 48 kHz stereo S16LE
(4 bytes per frame), empty 8192-frame ring, a write of 16384 bytes
(4096 frames) returns 16384 and moves `write_idx` to 4096. -/
theorem juke_write_frames_written_witness :
    (juke_write
        { present := true, ring_frames := 8192, write_idx := 0,
          read_idx := 0, enabled := 1, ring := fun _ => 0 }
        (fun _ => 0) 16384 4 0).2.write_idx = 4096
    ∧ (juke_write
        { present := true, ring_frames := 8192, write_idx := 0,
          read_idx := 0, enabled := 1, ring := fun _ => 0 }
        (fun _ => 0) 16384 4 0).1 = 16384 := by
  have h := juke_write_frames_written
    { present := true, ring_frames := 8192, write_idx := 0,
      read_idx := 0, enabled := 1, ring := fun _ => 0 }
    (fun _ => 0) 16384 4 0 rfl rfl (by decide)
  refine ⟨?_, ?_⟩
  · rw [h.1]; decide
  · rw [h.2.1 (by decide)]; decide

/-- C6: whenever `juke_write` stores no frames — the acquire-loaded
`enabled` field is 0, or `free_frames` is 0 (ring full minus the one
reserved slot) — it returns the rate-controller byte estimate and the
whole audio state (in particular `write_idx` and the ring bytes) is
unchanged. -/
theorem juke_write_backpressure (s : AudioState) (buf : Nat → Nat)
    (len fs rateBytes : Nat)
    (h : s.enabled = 0 ∨ jw_free s = 0) :
    juke_write s buf len fs rateBytes = (rateBytes, s) := by
  rcases h with h | h
  · by_cases hp : s.present = false <;> simp [juke_write, hp, h]
  · have h0 : jw_frames s len fs = 0 := by simp [jw_frames, h]
    by_cases hp : s.present = false
    · simp [juke_write, hp]
    · by_cases he : s.enabled = 0 <;> simp [juke_write, hp, he, h0]

/-- Witness for C6, scenario S2 of the spec: ring full minus one slot
(`write_idx = 8191`, `read_idx = 0`), `enabled = 1`: a 1000-frame write
returns the rate estimate (123 here) and changes nothing. -/
theorem juke_write_backpressure_witness :
    juke_write
      { present := true, ring_frames := 8192, write_idx := 8191,
        read_idx := 0, enabled := 1, ring := fun _ => 0 }
      (fun _ => 0) 4000 4 123
    = (123,
       { present := true, ring_frames := 8192, write_idx := 8191,
         read_idx := 0, enabled := 1, ring := fun _ => 0 }) :=
  juke_write_backpressure _ _ _ _ _ (Or.inr (by decide))

/-- C9: both send-fd operations are idempotent.  With no connected
peer, no shared-memory fd, or the fd already sent, they change nothing
and call `sendmsg` not at all; a successful send sets `fd_sent`; and
once `fd_sent` holds, any number of further calls (whatever `sendmsg`
would do) leave the state unchanged. -/
theorem send_fd_idempotent :
    (∀ (s : JukeShmemState) (ok : Bool),
       s.client_connected = false ∨ s.shmem_fd_present = false ∨ s.fd_sent = true →
       juke_shmem_send_fd s ok = (s, false))
    ∧ (∀ s : JukeShmemState,
       s.client_connected = true → s.shmem_fd_present = true → s.fd_sent = false →
       (juke_shmem_send_fd s true).1.fd_sent = true)
    ∧ (∀ (s : JukeShmemState) (oks : List Bool),
       s.fd_sent = true → sendFdCalls s oks = s)
    ∧ (∀ (s : JukeAudioConn) (ok : Bool),
       s.client_connected = false ∨ s.shmem_fd_present = false ∨ s.fd_sent = true →
       juke_audio_send_fd s ok = (s, false))
    ∧ (∀ s : JukeAudioConn,
       s.client_connected = true → s.shmem_fd_present = true → s.fd_sent = false →
       (juke_audio_send_fd s true).1.fd_sent = true)
    ∧ (∀ (s : JukeAudioConn) (oks : List Bool),
       s.fd_sent = true → audioSendFdCalls s oks = s) := by
  have hdisp : ∀ (s : JukeShmemState) (ok : Bool), s.fd_sent = true →
      (juke_shmem_send_fd s ok).1 = s := by
    intro s ok h
    simp [juke_shmem_send_fd, h]
  have haud : ∀ (s : JukeAudioConn) (ok : Bool), s.fd_sent = true →
      (juke_audio_send_fd s ok).1 = s := by
    intro s ok h
    simp [juke_audio_send_fd, h]
  refine ⟨?_, ?_, ?_, ?_, ?_, ?_⟩
  · intro s ok h
    simp only [juke_shmem_send_fd, if_pos h]
  · intro s h1 h2 h3
    simp [juke_shmem_send_fd, h1, h2, h3]
  · intro s oks h
    induction oks with
    | nil => rfl
    | cons ok oks ih =>
      show sendFdCalls (juke_shmem_send_fd s ok).1 oks = s
      rw [hdisp s ok h, ih]
  · intro s ok h
    simp only [juke_audio_send_fd, if_pos h]
  · intro s h1 h2 h3
    simp [juke_audio_send_fd, h1, h2, h3]
  · intro s oks h
    induction oks with
    | nil => rfl
    | cons ok oks ih =>
      show audioSendFdCalls (juke_audio_send_fd s ok).1 oks = s
      rw [haud s ok h, ih]

/-- Witness for C9: a display state and an audio state that have sent
their fd already absorb any further send-fd calls. -/
theorem send_fd_idempotent_witness :
    sendFdCalls
      { surface := none, shmem := none, shmem_size := 0,
        shmem_fd_present := true, has_socket_path := true,
        client_connected := true, fd_sent := true }
      [true, false, true]
    = { surface := none, shmem := none, shmem_size := 0,
        shmem_fd_present := true, has_socket_path := true,
        client_connected := true, fd_sent := true }
    ∧ audioSendFdCalls
      { client_connected := true, shmem_fd_present := true, fd_sent := true }
      [false, true]
    = { client_connected := true, shmem_fd_present := true, fd_sent := true } :=
  ⟨send_fd_idempotent.2.2.1 _ _ rfl, send_fd_idempotent.2.2.2.2.2 _ _ rfl⟩

theorem audioStep_inv (fs : Nat) (s : AudioState) (op : AudioOp)
    (h : AudioInv s) : AudioInv (audioStep fs s op) := by
  obtain ⟨hrf, hw, hr, hocc⟩ := h
  cases op with
  | write buf len rb =>
    show AudioInv (juke_write s buf len fs rb).2
    by_cases hp : s.present = false
    · simpa [juke_write, hp, AudioInv] using ⟨hrf, hw, hr, hocc⟩
    · by_cases he : s.enabled = 0
      · simpa [juke_write, hp, he, AudioInv] using ⟨hrf, hw, hr, hocc⟩
      · by_cases h0 : jw_frames s len fs = 0
        · simpa [juke_write, hp, he, h0, AudioInv] using ⟨hrf, hw, hr, hocc⟩
        · have hmask : sub32 s.write_idx s.read_idx &&& (8192 - 1)
              = sub32 s.write_idx s.read_idx % 8192 := by
            have := Nat.and_pow_two_sub_one_eq_mod (sub32 s.write_idx s.read_idx) 13
            norm_num at this
            exact this
          have hftw : jw_frames s len fs ≤ jw_free s := Nat.min_le_right _ _
          have hfree : jw_free s
              = 8192 - sub32 s.write_idx s.read_idx % 8192 - 1 := by
            rw [jw_free, jw_used, hrf]
            rw [JUKE_AUDIO_RING_FRAMES] at *
            rw [hmask]
          refine ⟨?_, ?_, ?_, ?_⟩ <;>
            simp only [juke_write, hp, he, h0, Bool.false_eq_true, if_false,
              ite_false, AudioInv] <;>
            first
            | exact hrf
            | exact hr
            | skip
          · show (s.write_idx + jw_frames s len fs) % U32 < U32
            exact Nat.mod_lt _ (by rw [U32]; omega)
          · show sub32 ((s.write_idx + jw_frames s len fs) % U32) s.read_idx
                ≤ JUKE_AUDIO_RING_FRAMES - 1
            rw [hfree] at hftw
            rw [JUKE_AUDIO_RING_FRAMES] at *
            rw [sub32, U32] at *
            omega
  | consume k =>
    refine ⟨hrf, hw, ?_, ?_⟩
    · exact Nat.mod_lt _ (by rw [U32]; omega)
    · show sub32 s.write_idx
          ((s.read_idx + min k (sub32 s.write_idx s.read_idx)) % U32)
          ≤ JUKE_AUDIO_RING_FRAMES - 1
      have hm : min k (sub32 s.write_idx s.read_idx)
          ≤ sub32 s.write_idx s.read_idx := Nat.min_le_right _ _
      generalize hg : min k (sub32 s.write_idx s.read_idx) = m at hm ⊢
      simp only [sub32, U32, JUKE_AUDIO_RING_FRAMES] at hm hocc hw hr ⊢
      omega
  | setEnabled e => exact ⟨hrf, hw, hr, hocc⟩

theorem audioRun_inv (fs : Nat) (ring0 : Nat → Nat) (ops : List AudioOp) :
    AudioInv (audioRun fs ring0 ops) := by
  have hbase : AudioInv (initAudioState ring0) := by
    refine ⟨rfl, ?_, ?_, ?_⟩ <;>
      norm_num [initAudioState, sub32, U32, JUKE_AUDIO_RING_FRAMES]
  rw [audioRun]
  induction ops generalizing ring0 with
  | nil => exact hbase
  | cons op ops ih =>
    show AudioInv (ops.foldl (audioStep fs) (audioStep fs (initAudioState ring0) op))
    have : ∀ (t : AudioState), AudioInv t → AudioInv (ops.foldl (audioStep fs) t) := by
      clear ih hbase
      induction ops with
      | nil => exact fun t ht => ht
      | cons op2 ops2 ih2 =>
        exact fun t ht => ih2 (audioStep fs t op2) (audioStep_inv fs t op2 ht)
    exact this _ (audioStep_inv fs _ op hbase)

/-- C7: for every interleaving of producer writes, consumer advances
and enable toggles, starting from the freshly initialized ring, the
occupancy `(write_idx - read_idx) mod 2^32` stays at most
`ring_frames - 1`: the producer never overwrites an unconsumed slot,
and the masked `used` of the source always equals the true occupancy. -/
theorem audio_no_overwrite (fs : Nat) (ring0 : Nat → Nat) (ops : List AudioOp) :
    sub32 (audioRun fs ring0 ops).write_idx (audioRun fs ring0 ops).read_idx
      ≤ JUKE_AUDIO_RING_FRAMES - 1
    ∧ jw_used (audioRun fs ring0 ops)
      = sub32 (audioRun fs ring0 ops).write_idx (audioRun fs ring0 ops).read_idx := by
  obtain ⟨hrf, hw, hr, hocc⟩ := audioRun_inv fs ring0 ops
  refine ⟨hocc, ?_⟩
  rw [jw_used, hrf]
  have hmask := Nat.and_pow_two_sub_one_eq_mod
    (sub32 (audioRun fs ring0 ops).write_idx (audioRun fs ring0 ops).read_idx) 13
  norm_num at hmask
  rw [JUKE_AUDIO_RING_FRAMES] at *
  rw [hmask]
  omega

/-- C4: with a region and surface present, `gfx_update(x,y,w,h)` copies
the full `stride` bytes of every surface row in `[y, y+h)` into the
shared pixel buffer (bytes outside those rows are untouched), writes
the dirty rectangle `x, y, w, h` into the header, and bumps
`frame_counter` by exactly one (u64 add, done with release ordering in
the source as the publish point); `cursor_version` and the input ring
are untouched. -/
theorem gfx_update_publishes (s : JukeShmemState) (r : Region) (surf : Surface)
    (x y w h : Nat) (hs : s.shmem = some r) (hsurf : s.surface = some surf) :
    ∃ r2, (juke_shmem_gfx_update s x y w h).shmem = some r2
      ∧ (∀ row i, y ≤ row → row < y + h → i < surf.stride →
           r2.pixels (row * surf.stride + i) = surf.data (row * surf.stride + i))
      ∧ (∀ j, j < y * surf.stride ∨ (y + h) * surf.stride ≤ j →
           r2.pixels j = r.pixels j)
      ∧ r2.hdr.dirty_x = x ∧ r2.hdr.dirty_y = y
      ∧ r2.hdr.dirty_w = w ∧ r2.hdr.dirty_h = h
      ∧ r2.hdr.frame_counter = (r.hdr.frame_counter + 1) % U64
      ∧ (r.hdr.frame_counter + 1 < U64 →
           r2.hdr.frame_counter = r.hdr.frame_counter + 1)
      ∧ r2.hdr.cursor_version = r.hdr.cursor_version
      ∧ r2.ring = r.ring := by
  simp only [juke_shmem_gfx_update, hs, hsurf]
  refine ⟨_, rfl, ?_, ?_, rfl, rfl, rfl, rfl, rfl, ?_, rfl, rfl⟩
  · intro row i hyr hrh hi
    have h1 : y * surf.stride ≤ row * surf.stride :=
      Nat.mul_le_mul_right _ hyr
    have h2 : row * surf.stride + surf.stride ≤ (y + h) * surf.stride := by
      have := Nat.mul_le_mul_right (k := surf.stride) (show row + 1 ≤ y + h by omega)
      simpa [Nat.succ_mul] using this
    simp only []
    rw [if_pos ⟨by omega, by omega⟩]
  · intro j hj
    simp only []
    rw [if_neg]
    rcases hj with hj | hj <;> omega
  · intro hlt
    exact Nat.mod_eq_of_lt hlt

/-- Witness for C4, scenario S4: after `gfx_update(10,20,30,40)` on a
region with `frame_counter = 0` the header reads
`dirty = (10,20,30,40)` and `frame_counter = 1`. -/
theorem gfx_update_publishes_witness :
    ∃ r2, (juke_shmem_gfx_update s4state 10 20 30 40).shmem = some r2
      ∧ r2.hdr.dirty_x = 10 ∧ r2.hdr.dirty_y = 20
      ∧ r2.hdr.dirty_w = 30 ∧ r2.hdr.dirty_h = 40
      ∧ r2.hdr.frame_counter = 1 := by
  obtain ⟨r2, h1, _, _, h2, h3, h4, h5, _, h6, _, _⟩ :=
    gfx_update_publishes s4state zeroRegion surf800 10 20 30 40 rfl rfl
  refine ⟨r2, h1, h2, h3, h4, h5, ?_⟩
  rw [h6 (by norm_num [zeroRegion, zeroHeader, U64])]
  norm_num [zeroRegion, zeroHeader]

theorem drainCalls_succ (rd n : Nat) (ev : Nat → JukeInputEvent)
    (W H : Nat) (hrd : rd < U32) :
    drainCalls rd (n + 1) ev W H
      = dispatchEvent W H (ev (rd % JUKE_INPUT_RING_SIZE))
        ++ drainCalls ((rd + 1) % U32) n ev W H := by
  rw [drainCalls, List.range_succ_eq_map, List.flatMap_cons]
  congr 1
  · rw [Nat.add_zero, Nat.mod_eq_of_lt hrd]
  · rw [drainCalls, List.flatMap, List.flatMap, List.map_map]
    have hcomp : ((fun i => dispatchEvent W H
          (ev (((rd + i) % U32) % JUKE_INPUT_RING_SIZE))) ∘ Nat.succ)
        = fun i => dispatchEvent W H
          (ev ((((rd + 1) % U32 + i) % U32) % JUKE_INPUT_RING_SIZE)) := by
      funext i
      simp only [Function.comp]
      have hidx : (rd + Nat.succ i) % U32 = ((rd + 1) % U32 + i) % U32 := by
        rw [Nat.mod_add_mod]
        congr 1
        omega
      rw [hidx]
    rw [hcomp]

theorem drainLoop_zero (rd w : Nat) (ev : Nat → JukeInputEvent) (W H : Nat) :
    drainLoop 0 rd w ev W H = (rd, []) := rfl

/-- The drain loop, run for exactly `drainCount` iterations of fuel,
terminates at `write_idx` and performs the closed-form dispatch
sequence. -/
theorem drainLoop_eq (ev : Nat → JukeInputEvent) (W H w : Nat) (hw : w < U32) :
    ∀ n rd, rd < U32 → drainCount w rd = n →
    drainLoop n rd w ev W H
      = (if n = 0 then rd else w, drainCalls rd n ev W H) := by
  intro n
  induction n with
  | zero =>
    intro rd _ _
    simp [drainLoop, drainCalls]
  | succ n ih =>
    intro rd hrd hn
    have hne : rd ≠ w := by
      intro he
      rw [he, drainCount, sub32] at hn
      rw [U32] at hn hw
      omega
    have hrd2 : (rd + 1) % U32 < U32 := Nat.mod_lt _ (by rw [U32]; omega)
    have hn2 : drainCount w ((rd + 1) % U32) = n := by
      rw [drainCount, sub32] at hn ⊢
      rw [U32] at hn hrd hw ⊢
      omega
    rw [drainLoop, if_neg hne, ih _ hrd2 hn2,
        drainCalls_succ rd n ev W H hrd]
    by_cases h0 : n = 0
    · have hball : (rd + 1) % U32 = w := by
        rw [h0, drainCount, sub32] at hn2
        rw [U32] at hn2 hrd2 hw ⊢
        omega
      simp [h0, hball]
    · simp [h0]

/-- Full characterization of one input drain, shared by several
theorems below. -/
theorem process_input_spec (s : JukeShmemState) (r : Region)
    (hs : s.shmem = some r) (hr : r.ring.read_idx < U32)
    (hw : r.ring.write_idx < U32) :
    ((juke_shmem_process_input s).2
        = drainCalls r.ring.read_idx
            (drainCount r.ring.write_idx r.ring.read_idx)
            r.ring.events r.hdr.width r.hdr.height
          ++ (if drainCount r.ring.write_idx r.ring.read_idx = 0 then []
              else [HostCall.sync]))
    ∧ (0 < drainCount r.ring.write_idx r.ring.read_idx →
        (juke_shmem_process_input s).1
          = { s with shmem := some { r with ring := { r.ring with read_idx := r.ring.write_idx } } })
    ∧ (drainCount r.ring.write_idx r.ring.read_idx = 0 →
        juke_shmem_process_input s = (s, [])) := by
  have hloop := drainLoop_eq r.ring.events r.hdr.width r.hdr.height
    r.ring.write_idx hw (drainCount r.ring.write_idx r.ring.read_idx)
    r.ring.read_idx hr rfl
  by_cases h0 : drainCount r.ring.write_idx r.ring.read_idx = 0
  · rw [h0] at hloop
    simp at hloop
    refine ⟨?_, ?_, ?_⟩
    · simp [juke_shmem_process_input, hs, h0, hloop, drainCalls]
    · intro hpos
      omega
    · intro _
      simp [juke_shmem_process_input, hs, h0, hloop, drainCalls]
  · have hne : r.ring.write_idx ≠ r.ring.read_idx := by
      intro he
      rw [drainCount, sub32, he] at h0
      rw [U32] at h0 hr
      omega
    simp only [if_neg h0] at hloop
    refine ⟨?_, ?_, ?_⟩
    · simp [juke_shmem_process_input, hs, hloop, h0, hne]
    · intro _
      simp [juke_shmem_process_input, hs, hloop, hne]
    · intro he
      exact absurd he h0

/-- C5: on an input drain with region present, exactly
`(write_idx - read_idx) mod 2^32` events are decoded starting at slot
`read_idx mod 256` and dispatched in order of increasing index; if at
least one event was drained, the dispatches are followed by a sync
flush and `read_idx` is set to the loaded `write_idx` (release store),
everything else unchanged; if the ring is empty, nothing is dispatched
and the state is untouched. -/
theorem process_input_drains (s : JukeShmemState) (r : Region)
    (hs : s.shmem = some r) (hr : r.ring.read_idx < U32)
    (hw : r.ring.write_idx < U32) :
    ((juke_shmem_process_input s).2
        = drainCalls r.ring.read_idx
            (drainCount r.ring.write_idx r.ring.read_idx)
            r.ring.events r.hdr.width r.hdr.height
          ++ (if drainCount r.ring.write_idx r.ring.read_idx = 0 then []
              else [HostCall.sync]))
    ∧ (0 < drainCount r.ring.write_idx r.ring.read_idx →
        (juke_shmem_process_input s).1
          = { s with shmem := some { r with ring := { r.ring with read_idx := r.ring.write_idx } } })
    ∧ (drainCount r.ring.write_idx r.ring.read_idx = 0 →
        juke_shmem_process_input s = (s, [])) :=
  process_input_spec s r hs hr hw

/-- Witness for C5, scenario S5: three enqueued events (relative move
(3,-2), button 1 down, key 42 down) with `write_idx = 3`,
`read_idx = 0` dispatch in order, a sync follows, and `read_idx`
becomes 3. -/
theorem process_input_drains_witness :
    (juke_shmem_process_input s5state).2
      = [HostCall.queueRelX 3, HostCall.queueRelY (-2),
         HostCall.queueBtn 1 1, HostCall.sendKey 42 1, HostCall.sync]
    ∧ (juke_shmem_process_input s5state).1
      = { s5state with shmem := some { s5region with ring := { s5region.ring with read_idx := 3 } } } := by
  have h := process_input_drains s5state s5region rfl (by decide) (by decide)
  constructor
  · rw [h.1]
    decide
  · rw [h.2.1 (by decide)]
    rfl

/-- C8: with a region present, a cursor-define with a canonical console
cursor clamps its width and height to 64, stores the clamped dimensions
and the hotspot, copies the pixels row by row into the 64-pixel-wide
slot (columns at or beyond the clamped width and rows at or beyond the
clamped height keep their old bytes), and bumps `cursor_version` by
exactly one (release-ordered add in the source); with no canonical
cursor, the dimensions are zeroed and `cursor_version` is still bumped
exactly once. -/
theorem cursor_define_spec (s : JukeShmemState) (r : Region)
    (hs : s.shmem = some r) :
    ((juke_shmem_cursor_define s none).shmem
        = some { r with hdr := { r.hdr with cursor_width := 0, cursor_height := 0, cursor_version := (r.hdr.cursor_version + 1) % U32 } })
    ∧ (∀ c : QEMUCursor, ∃ r2,
        (juke_shmem_cursor_define s (some c)).shmem = some r2
        ∧ r2.hdr.cursor_width = min c.width 64
        ∧ r2.hdr.cursor_height = min c.height 64
        ∧ r2.hdr.cursor_hot_x = c.hot_x
        ∧ r2.hdr.cursor_hot_y = c.hot_y
        ∧ r2.hdr.cursor_version = (r.hdr.cursor_version + 1) % U32
        ∧ (∀ row col, row < min c.height 64 → col < min c.width 64 →
            r2.cursor_data (row * 64 + col) = c.data (row * c.width + col))
        ∧ (∀ row col, col < 64 → min c.width 64 ≤ col →
            r2.cursor_data (row * 64 + col) = r.cursor_data (row * 64 + col))
        ∧ (∀ row col, col < 64 → min c.height 64 ≤ row →
            r2.cursor_data (row * 64 + col) = r.cursor_data (row * 64 + col))
        ∧ r2.hdr.frame_counter = r.hdr.frame_counter
        ∧ r2.ring = r.ring ∧ r2.pixels = r.pixels) := by
  constructor
  · simp [juke_shmem_cursor_define, hs]
  · intro c
    simp only [juke_shmem_cursor_define, hs]
    refine ⟨_, rfl, rfl, rfl, rfl, rfl, rfl, ?_, ?_, ?_, rfl, rfl, rfl⟩
    · intro row col hrow hcol
      have hdiv : (row * 64 + col) / 64 = row := by omega
      have hmod : (row * 64 + col) % 64 = col := by omega
      simp only [JUKE_CURSOR_MAX_SIZE, hdiv, hmod]
      rw [if_pos ⟨hrow, hcol⟩]
    · intro row col hcol hge
      have hmod : (row * 64 + col) % 64 = col := by omega
      simp only [JUKE_CURSOR_MAX_SIZE, hmod]
      rw [if_neg]
      intro hcontra
      omega
    · intro row col hcol hge
      have hdiv : (row * 64 + col) / 64 = row := by omega
      simp only [JUKE_CURSOR_MAX_SIZE, hdiv]
      rw [if_neg]
      intro hcontra
      omega

/-- Witness for C8, scenario S6: defining a 24 x 24 cursor with hotspot
(3,3) on a fresh region yields `cursor_width = cursor_height = 24`,
hotspot (3,3), `cursor_version = 1`; a subsequent null cursor clears
the dimensions and bumps the version again. -/
theorem cursor_define_spec_witness :
    (∃ r2, (juke_shmem_cursor_define s4state (some cursor24)).shmem = some r2
      ∧ r2.hdr.cursor_width = 24 ∧ r2.hdr.cursor_height = 24
      ∧ r2.hdr.cursor_hot_x = 3 ∧ r2.hdr.cursor_hot_y = 3
      ∧ r2.hdr.cursor_version = 1)
    ∧ (juke_shmem_cursor_define s4state none).shmem
      = some { zeroRegion with hdr := { zeroRegion.hdr with cursor_width := 0, cursor_height := 0, cursor_version := 1 } } := by
  have h := cursor_define_spec s4state zeroRegion rfl
  constructor
  · obtain ⟨r2, h1, h2, h3, h4, h5, h6, _⟩ := h.2 cursor24
    refine ⟨r2, h1, ?_, ?_, h4, h5, ?_⟩
    · rw [h2]; decide
    · rw [h3]; decide
    · rw [h6]; decide
  · rw [h.1]
    have hv : (zeroRegion.hdr.cursor_version + 1) % U32 = 1 := by decide
    rw [hv]

theorem gfxSwitchInitRegion_spec (r : Region) (surf : Surface) :
    (gfxSwitchInitRegion r surf).hdr.width = surf.width
    ∧ (gfxSwitchInitRegion r surf).hdr.height = surf.height
    ∧ (gfxSwitchInitRegion r surf).hdr.stride = surf.stride
    ∧ (gfxSwitchInitRegion r surf).hdr.format = surf.format
    ∧ (gfxSwitchInitRegion r surf).hdr.magic = JUKE_SHMEM_MAGIC
    ∧ (gfxSwitchInitRegion r surf).hdr.version = JUKE_SHMEM_VERSION
    ∧ (∀ i, i < surf.stride * surf.height →
        (gfxSwitchInitRegion r surf).pixels i = surf.data i) := by
  refine ⟨rfl, rfl, rfl, rfl, rfl, rfl, ?_⟩
  intro i hi
  simp only [gfxSwitchInitRegion]
  rw [if_pos hi]

/-- C3: for a `gfx_switch` with a non-null surface and a previously
mapped region, the region is replaced exactly when
`sizeof(header) + 64*64*4 + sizeof(input ring) + stride*height`
exceeds the current capacity — the old region is freed and `fd_sent`
cleared (it may be set again by the very same call if a peer is
connected and the fresh fd goes out), the fresh allocation and its fd
are stored, and the capacity becomes `needed`; when the size fits, the
existing region, fd and `fd_sent` survive.  In both cases (allocation
succeeding) the header afterwards holds exactly the new surface's
width, height, stride and format, and the first `stride*height` pixel
bytes equal the new surface's contents. -/
theorem gfx_switch_realloc_spec (s : JukeShmemState) (rOld r0 : Region)
    (surf : Surface) (sendOk : Bool) (hs : s.shmem = some rOld) :
    (s.shmem_size < gfxNeeded surf →
       (juke_shmem_gfx_switch s (some surf) (some r0) sendOk).shmem
           = some (gfxSwitchInitRegion r0 surf)
       ∧ (juke_shmem_gfx_switch s (some surf) (some r0) sendOk).shmem_size
           = gfxNeeded surf
       ∧ (juke_shmem_gfx_switch s (some surf) (some r0) sendOk).shmem_fd_present
           = true
       ∧ (juke_shmem_gfx_switch s (some surf) (some r0) sendOk).fd_sent
           = (s.client_connected && sendOk))
    ∧ (¬ s.shmem_size < gfxNeeded surf →
       (juke_shmem_gfx_switch s (some surf) (some r0) sendOk).shmem
           = some (gfxSwitchInitRegion rOld surf)
       ∧ (juke_shmem_gfx_switch s (some surf) (some r0) sendOk).shmem_size
           = s.shmem_size
       ∧ (juke_shmem_gfx_switch s (some surf) (some r0) sendOk).shmem_fd_present
           = s.shmem_fd_present
       ∧ (s.fd_sent = true →
           (juke_shmem_gfx_switch s (some surf) (some r0) sendOk).fd_sent = true))
    ∧ (∀ r2, (juke_shmem_gfx_switch s (some surf) (some r0) sendOk).shmem = some r2 →
       r2.hdr.width = surf.width ∧ r2.hdr.height = surf.height
       ∧ r2.hdr.stride = surf.stride ∧ r2.hdr.format = surf.format
       ∧ (∀ i, i < surf.stride * surf.height → r2.pixels i = surf.data i)) := by
  have hshape : (juke_shmem_gfx_switch s (some surf) (some r0) sendOk).shmem
      = some (gfxSwitchInitRegion (if s.shmem_size < gfxNeeded surf then r0 else rOld) surf) := by
    by_cases hlt : s.shmem_size < gfxNeeded surf <;>
      by_cases hc : s.client_connected = true <;>
        by_cases hf : s.fd_sent = true <;>
          by_cases hk : sendOk <;>
            by_cases hp : s.shmem_fd_present = true <;>
              simp [juke_shmem_gfx_switch, juke_shmem_send_fd, hs, hlt, hc, hf, hk, hp]
  refine ⟨?_, ?_, ?_⟩
  · intro hlt
    by_cases hc : s.client_connected = true <;>
      by_cases hf : s.fd_sent = true <;>
        by_cases hk : sendOk <;>
          by_cases hp : s.shmem_fd_present = true <;>
            simp [juke_shmem_gfx_switch, juke_shmem_send_fd, hs, hlt, hc, hf, hk, hp]
  · intro hlt
    by_cases hc : s.client_connected = true <;>
      by_cases hf : s.fd_sent = true <;>
        by_cases hk : sendOk <;>
          by_cases hp : s.shmem_fd_present = true <;>
            simp [juke_shmem_gfx_switch, juke_shmem_send_fd, hs, hlt, hc, hf, hk, hp]
  · intro r2 hr2
    rw [hshape] at hr2
    obtain rfl : r2 = gfxSwitchInitRegion (if s.shmem_size < gfxNeeded surf then r0 else rOld) surf :=
      (Option.some_injective _ hr2).symm
    obtain ⟨h1, h2, h3, h4, _, _, h7⟩ :=
      gfxSwitchInitRegion_spec (if s.shmem_size < gfxNeeded surf then r0 else rOld) surf
    exact ⟨h1, h2, h3, h4, h7⟩

/-- Witness for C3: against a 2 MB capacity the 800 x 600 surface
(needs 1939552 bytes) fits, so the capacity and region survive; with
the capacity forced to 0, the same switch reallocates and the capacity
becomes exactly `needed`. -/
theorem gfx_switch_realloc_spec_witness :
    ¬ s4state.shmem_size < gfxNeeded surf800
    ∧ (juke_shmem_gfx_switch s4state (some surf800) (some zeroRegion) false).shmem_size
        = s4state.shmem_size
    ∧ (juke_shmem_gfx_switch s4state (some surf800) (some zeroRegion) false).shmem
        = some (gfxSwitchInitRegion zeroRegion surf800)
    ∧ ({ s4state with shmem_size := 0 } : JukeShmemState).shmem_size < gfxNeeded surf800
    ∧ (juke_shmem_gfx_switch { s4state with shmem_size := 0 } (some surf800)
        (some zeroRegion) false).shmem_size = gfxNeeded surf800 := by
  have hfit := (gfx_switch_realloc_spec s4state zeroRegion zeroRegion surf800 false rfl).2.1
    (by decide)
  have hgrow := (gfx_switch_realloc_spec { s4state with shmem_size := 0 } zeroRegion
    zeroRegion surf800 false rfl).1 (by decide)
  exact ⟨by decide, hfit.2.1, hfit.1, by decide, hgrow.2.1⟩

/-- C10: a `gfx_switch` whose needed size fits the current capacity
keeps the region, the fd and the capacity, and does not clear
`fd_sent` — yet it unconditionally resets `frame_counter`, every
cursor header field, and both input-ring indices to 0, so input events
enqueued by the renderer but not yet drained are silently discarded:
the next input drain dispatches nothing. -/
theorem gfx_switch_no_realloc_resets (s : JukeShmemState) (rOld : Region)
    (surf : Surface) (alloc : Option Region) (sendOk : Bool)
    (hs : s.shmem = some rOld) (hfit : ¬ s.shmem_size < gfxNeeded surf) :
    (juke_shmem_gfx_switch s (some surf) alloc sendOk).shmem_size = s.shmem_size
    ∧ (juke_shmem_gfx_switch s (some surf) alloc sendOk).shmem_fd_present
        = s.shmem_fd_present
    ∧ (s.fd_sent = true →
        (juke_shmem_gfx_switch s (some surf) alloc sendOk).fd_sent = true)
    ∧ (juke_shmem_gfx_switch s (some surf) alloc sendOk).shmem
        = some (gfxSwitchInitRegion rOld surf)
    ∧ (gfxSwitchInitRegion rOld surf).hdr.frame_counter = 0
    ∧ (gfxSwitchInitRegion rOld surf).hdr.cursor_version = 0
    ∧ (gfxSwitchInitRegion rOld surf).hdr.cursor_width = 0
    ∧ (gfxSwitchInitRegion rOld surf).hdr.cursor_height = 0
    ∧ (gfxSwitchInitRegion rOld surf).hdr.cursor_visible = 0
    ∧ (gfxSwitchInitRegion rOld surf).ring.write_idx = 0
    ∧ (gfxSwitchInitRegion rOld surf).ring.read_idx = 0
    ∧ (gfxSwitchInitRegion rOld surf).cursor_data = rOld.cursor_data
    ∧ juke_shmem_process_input (juke_shmem_gfx_switch s (some surf) alloc sendOk)
        = (juke_shmem_gfx_switch s (some surf) alloc sendOk, []) := by
  have hkeep : (juke_shmem_gfx_switch s (some surf) alloc sendOk).shmem_size
        = s.shmem_size
      ∧ (juke_shmem_gfx_switch s (some surf) alloc sendOk).shmem_fd_present
        = s.shmem_fd_present
      ∧ (s.fd_sent = true →
          (juke_shmem_gfx_switch s (some surf) alloc sendOk).fd_sent = true)
      ∧ (juke_shmem_gfx_switch s (some surf) alloc sendOk).shmem
        = some (gfxSwitchInitRegion rOld surf) := by
    by_cases hc : s.client_connected = true <;>
      by_cases hf : s.fd_sent = true <;>
        by_cases hk : sendOk <;>
          by_cases hp : s.shmem_fd_present = true <;>
            simp [juke_shmem_gfx_switch, juke_shmem_send_fd, hs, hfit, hc, hf, hk, hp]
  refine ⟨hkeep.1, hkeep.2.1, hkeep.2.2.1, hkeep.2.2.2,
    rfl, rfl, rfl, rfl, rfl, rfl, rfl, rfl, ?_⟩
  have hw0 : (gfxSwitchInitRegion rOld surf).ring.write_idx = 0 := rfl
  have hr0 : (gfxSwitchInitRegion rOld surf).ring.read_idx = 0 := rfl
  have hdc : drainCount 0 0 = 0 := by
    simp [drainCount, sub32, U32]
  simp [juke_shmem_process_input, hkeep.2.2.2, hw0, hr0, hdc, drainLoop_zero]

/-- Witness for C10: `liveState` has capacity 100000 and four enqueued,
one drained input event (`write_idx = 4`, `read_idx = 1`,
`frame_counter = 5`); switching to the 1 x 1 surface `surf1`
(needs 19556 bytes, fits) keeps capacity and fd yet discards the three
pending events — the follow-up drain dispatches nothing. -/
theorem gfx_switch_no_realloc_resets_witness :
    (juke_shmem_gfx_switch liveState (some surf1) none false).shmem_size = 100000
    ∧ (juke_shmem_gfx_switch liveState (some surf1) none false).fd_sent = true
    ∧ (gfxSwitchInitRegion liveRegion surf1).ring.write_idx = 0
    ∧ (gfxSwitchInitRegion liveRegion surf1).ring.read_idx = 0
    ∧ juke_shmem_process_input (juke_shmem_gfx_switch liveState (some surf1) none false)
        = (juke_shmem_gfx_switch liveState (some surf1) none false, []) := by
  have h := gfx_switch_no_realloc_resets liveState liveRegion surf1 none false rfl
    (by decide)
  exact ⟨h.1, h.2.2.1 rfl, h.2.2.2.2.2.2.2.2.2.1, h.2.2.2.2.2.2.2.2.2.2.1,
    h.2.2.2.2.2.2.2.2.2.2.2.2⟩

/-- Counterexample to C2 as stated: the claim says nothing but a region
replacement ever resets the counters, but a `gfx_switch` that fits in
the current capacity (no replacement: region, fd, capacity and
`fd_sent` all survive) still resets `frame_counter` from 5 to 0,
`cursor_version` from 7 to 0, and the ring indices from (4,1) to
(0,0). -/
theorem counters_reset_counterexample :
    (liveState.shmem.map fun r => r.hdr.frame_counter) = some 5
    ∧ (liveState.shmem.map fun r => r.hdr.cursor_version) = some 7
    ∧ (liveState.shmem.map fun r => r.ring.write_idx) = some 4
    ∧ ((juke_shmem_gfx_switch liveState (some surf1) none false).shmem.map
        fun r => r.hdr.frame_counter) = some 0
    ∧ ((juke_shmem_gfx_switch liveState (some surf1) none false).shmem.map
        fun r => r.hdr.cursor_version) = some 0
    ∧ ((juke_shmem_gfx_switch liveState (some surf1) none false).shmem.map
        fun r => r.ring.write_idx) = some 0
    ∧ (juke_shmem_gfx_switch liveState (some surf1) none false).shmem_size
        = liveState.shmem_size
    ∧ (juke_shmem_gfx_switch liveState (some surf1) none false).shmem_fd_present
        = liveState.shmem_fd_present
    ∧ (juke_shmem_gfx_switch liveState (some surf1) none false).fd_sent
        = liveState.fd_sent := by
  decide

/-- C2 (amended): `frame_counter` and `cursor_version` never decrease
and the ring indices are never reset by `gfx_update`, `cursor_define`,
`mouse_set`, the input drain (which only moves `read_idx` forward to
`write_idx`) or `send_fd`; but every `gfx_switch` with a non-null
surface resets them (see the counterexample), not only a region
replacement. -/
theorem counters_monotone_amended :
    (∀ (s : JukeShmemState) (r : Region) (surf : Surface) (x y w h : Nat),
       s.shmem = some r → s.surface = some surf →
       ∃ r2, (juke_shmem_gfx_update s x y w h).shmem = some r2
         ∧ r2.hdr.frame_counter = (r.hdr.frame_counter + 1) % U64
         ∧ r2.hdr.cursor_version = r.hdr.cursor_version
         ∧ r2.ring.write_idx = r.ring.write_idx
         ∧ r2.ring.read_idx = r.ring.read_idx)
    ∧ (∀ (s : JukeShmemState) (r : Region) (con : Option QEMUCursor),
       s.shmem = some r →
       ∃ r2, (juke_shmem_cursor_define s con).shmem = some r2
         ∧ r2.hdr.cursor_version = (r.hdr.cursor_version + 1) % U32
         ∧ r2.hdr.frame_counter = r.hdr.frame_counter
         ∧ r2.ring.write_idx = r.ring.write_idx
         ∧ r2.ring.read_idx = r.ring.read_idx)
    ∧ (∀ (s : JukeShmemState) (x y : Int) (vis : Bool) (r : Region),
       s.shmem = some r →
       ∃ r2, (juke_shmem_mouse_set s x y vis).shmem = some r2
         ∧ r2.hdr.frame_counter = r.hdr.frame_counter
         ∧ r2.hdr.cursor_version = r.hdr.cursor_version
         ∧ r2.ring = r.ring)
    ∧ (∀ (s : JukeShmemState) (r : Region),
       s.shmem = some r → r.ring.read_idx < U32 → r.ring.write_idx < U32 →
       ∃ r2, (juke_shmem_process_input s).1.shmem = some r2
         ∧ r2.hdr = r.hdr
         ∧ r2.ring.write_idx = r.ring.write_idx
         ∧ (r2.ring.read_idx = r.ring.read_idx ∨ r2.ring.read_idx = r.ring.write_idx))
    ∧ (∀ (s : JukeShmemState) (ok : Bool), (juke_shmem_send_fd s ok).1.shmem = s.shmem)
    ∧ (∀ (s : JukeShmemState) (alloc : Option Region) (ok : Bool),
       (juke_shmem_gfx_switch s none alloc ok).shmem = s.shmem) := by
  refine ⟨?_, ?_, ?_, ?_, ?_, ?_⟩
  · intro s r surf x y w h hs hsurf
    refine ⟨{ r with pixels := fun i => if y * surf.stride ≤ i ∧ i < (y + h) * surf.stride then surf.data i else r.pixels i, hdr := { r.hdr with dirty_x := x, dirty_y := y, dirty_w := w, dirty_h := h, frame_counter := (r.hdr.frame_counter + 1) % U64 } },
      ?_, rfl, rfl, rfl, rfl⟩
    simp [juke_shmem_gfx_update, hs, hsurf]
  · intro s r con hs
    cases con with
    | none =>
      refine ⟨{ r with hdr := { r.hdr with cursor_width := 0, cursor_height := 0, cursor_version := (r.hdr.cursor_version + 1) % U32 } },
        ?_, rfl, rfl, rfl, rfl⟩
      simp [juke_shmem_cursor_define, hs]
    | some c =>
      refine ⟨{ r with hdr := { r.hdr with cursor_width := min c.width JUKE_CURSOR_MAX_SIZE, cursor_height := min c.height JUKE_CURSOR_MAX_SIZE, cursor_hot_x := c.hot_x, cursor_hot_y := c.hot_y, cursor_version := (r.hdr.cursor_version + 1) % U32 }, cursor_data := fun i => if i / JUKE_CURSOR_MAX_SIZE < min c.height JUKE_CURSOR_MAX_SIZE ∧ i % JUKE_CURSOR_MAX_SIZE < min c.width JUKE_CURSOR_MAX_SIZE then c.data ((i / JUKE_CURSOR_MAX_SIZE) * c.width + i % JUKE_CURSOR_MAX_SIZE) else r.cursor_data i },
        ?_, rfl, rfl, rfl, rfl⟩
      simp [juke_shmem_cursor_define, hs]
  · intro s x y vis r hs
    refine ⟨{ r with hdr := { r.hdr with cursor_x := x, cursor_y := y, cursor_visible := if vis then 1 else 0 } },
      ?_, rfl, rfl, rfl⟩
    simp [juke_shmem_mouse_set, hs]
  · intro s r hs hr hw
    have h := process_input_spec s r hs hr hw
    by_cases h0 : drainCount r.ring.write_idx r.ring.read_idx = 0
    · refine ⟨r, ?_, rfl, rfl, Or.inl rfl⟩
      rw [h.2.2 h0]
      exact hs
    · refine ⟨{ r with ring := { r.ring with read_idx := r.ring.write_idx } },
        ?_, rfl, rfl, Or.inr rfl⟩
      rw [h.2.1 (by omega)]
  · intro s ok
    by_cases hg : s.client_connected = false ∨ s.shmem_fd_present = false ∨ s.fd_sent = true
    · simp [juke_shmem_send_fd, hg]
    · by_cases hk : ok <;> simp [juke_shmem_send_fd, hg, hk]
  · intro s alloc ok
    simp [juke_shmem_gfx_switch]

/-- Witness for C2 (amended): a dirty-rectangle publish on the S4 state
moves `frame_counter` from 0 to 1 and leaves `cursor_version` at 0. -/
theorem counters_monotone_amended_witness :
    ∃ r2, (juke_shmem_gfx_update s4state 0 0 1 1).shmem = some r2
      ∧ r2.hdr.frame_counter = 1
      ∧ r2.hdr.cursor_version = 0 := by
  obtain ⟨r2, h1, h2, h3, _⟩ :=
    counters_monotone_amended.1 s4state zeroRegion surf800 0 0 1 1 rfl rfl
  refine ⟨r2, h1, ?_, ?_⟩
  · rw [h2]
    decide
  · rw [h3]
    decide

end JukeSpec
